import Mathlib

/-
Verification of the voice-assistant pipeline in run.py: utterance
segmentation, command classification, fuzzy catalog resolution, and
dispatch.  The mpd media player is driven through the external `mpc`
command-line tool; `mpc list ...` catalog queries are modelled as reads
of a `Catalog` snapshot, while the mutating `subprocess.run(["mpc", ...])`
invocations (clear / findadd / play / ...) are modelled as emitted
`Effect`s.  Python exceptions that can escape a dispatch branch are
modelled explicitly with `PyExn`.
-/

namespace Chatbot

/-- Python `str.split()` with no argument: split on runs of whitespace,
discarding empty pieces.  Auxiliary recursion over the character list,
with the current (reversed) token as accumulator. -/
def splitWsAux : List Char → List Char → List String
  | [], [] => []
  | [], acc => [String.mk acc.reverse]
  | c :: cs, acc =>
    if c.isWhitespace then
      match acc with
      | [] => splitWsAux cs []
      | _ => String.mk acc.reverse :: splitWsAux cs []
    else splitWsAux cs (c :: acc)

/-- Python `text.split()` (whitespace tokenization, as in `run.py` line
`parts = pending_text.split()`). -/
def pySplit (s : String) : List String := splitWsAux s.data []

/-- Python `" ".join(l)`. -/
def joinSp : List String → String
  | [] => ""
  | [x] => x
  | x :: xs => x ++ " " ++ joinSp xs

/-- ASCII lower-casing of one character (the catalog and utterance strings
handled by the program are ASCII). -/
def lowerChar (c : Char) : Char :=
  if 'A' ≤ c ∧ c ≤ 'Z' then Char.ofNat (c.toNat + 32) else c

/-- Python `s.lower()`. -/
def pyLower (s : String) : String := String.mk (s.data.map lowerChar)

/-- Python `s.strip()`: drop leading and trailing whitespace. -/
def pyStrip (s : String) : String :=
  String.mk (((s.data.dropWhile Char.isWhitespace).reverse.dropWhile
    Char.isWhitespace).reverse)

/-- Python `s.split(" by ")`: split on the leftmost non-overlapping
occurrences of the four-character separator, keeping empty pieces. -/
def splitOnByAux : List Char → List Char → List String
  | ' ' :: 'b' :: 'y' :: ' ' :: rest, acc =>
    String.mk acc.reverse :: splitOnByAux rest []
  | c :: cs, acc => splitOnByAux cs (c :: acc)
  | [], acc => [String.mk acc.reverse]

/-- Python `s.split(" by ")` on a string. -/
def splitOnBy (s : String) : List String := splitOnByAux s.data []

/-- Python `s.startswith("play")`. -/
def startsPlay (s : String) : Bool := "play".data.isPrefixOf s.data

/-- Indel edit-distance recursion with an explicit fuel argument (for
structural recursion; the fuel is seeded with the total length of the two
lists and can never run out, so the `0` fallback line is unreachable). -/
def indelDistAux : Nat → List Char → List Char → Nat
  | _, [], ys => ys.length
  | _, xs, [] => xs.length
  | 0, xs, ys => xs.length + ys.length
  | fuel + 1, x :: xs, y :: ys =>
    if x = y then indelDistAux fuel xs ys
    else 1 + Nat.min (indelDistAux fuel xs (y :: ys))
      (indelDistAux fuel (x :: xs) ys)

/-- Indel edit distance (Levenshtein with substitutions forbidden, i.e.
counted as a deletion plus an insertion), the distance underlying
`thefuzz`'s `fuzz.ratio`. -/
def indelDist (a b : List Char) : Nat :=
  indelDistAux (a.length + b.length) a b

/-- Modelled from the spec: the Similarity Scorer used via the external
`thefuzz` library (`fuzz.ratio`, whose code is not part of this
repository): a character-level edit-distance-based similarity normalized
to 0..100, with identical strings scoring 100 and fully disjoint strings
scoring 0.  Rounding of the normalized value is to nearest (half up). -/
def similarity (a b : String) : Nat :=
  if a.data.length + b.data.length = 0 then 100
  else (200 * (a.data.length + b.data.length - indelDist a.data b.data)
      + (a.data.length + b.data.length)) / (2 * (a.data.length + b.data.length))

/-- The score the resolvers compute for one candidate `name` against the
spoken `query`: `fuzz.ratio(query.lower(), name.lower())`. -/
def scoreAgainst (query name : String) : Nat :=
  similarity (pyLower query) (pyLower name)

/-- The stdout post-processing shared by all three resolvers:
`[line.strip() for line in result.stdout.splitlines() if line.strip()]`. -/
def stripLines (lines : List String) : List String :=
  (lines.map pyStrip).filter (fun s => s ≠ "")

/-- One step of the max-score selection loop
(`if score > top[1]: top = (i, score)`). -/
def stepT (sc : String → Nat) (top : String × Nat) (i : String) : String × Nat :=
  if top.2 < sc i then (i, sc i) else top

/-- The whole selection loop, started from `top = ("", 0)`. -/
def findTop (sc : String → Nat) (items : List String) : String × Nat :=
  items.foldl (stepT sc) ("", 0)

/-- Running maximum of the scores of `items`, seeded with `s`. -/
def listMax (sc : String → Nat) (s : Nat) (items : List String) : Nat :=
  items.foldl (fun m i => max m (sc i)) s

/-- The true maximum similarity score over a candidate list (0 when the
list is empty; scores are never negative). -/
def bestScore (sc : String → Nat) (items : List String) : Nat :=
  listMax sc 0 items

/-- A snapshot of what the `mpc list` catalog queries return, as raw
stdout lines: `mpc list artist`, `mpc list title`, and
`mpc list title artist A` for each artist `A`. -/
structure Catalog where
  artistLines : List String
  titleLines : List String
  titlesFor : String → List String

/-- `find_artist` (run.py lines 36-53): scan all artist names, keep the
max-scoring one (strict improvement, so ties go to the first-encountered
candidate), and return it only when its score strictly exceeds the
hard-coded threshold 0; otherwise return `None`. -/
def find_artist (artistLines : List String) (query : String) : Option String :=
  let top := findTop (scoreAgainst query) (stripLines artistLines)
  if 0 < top.2 then some top.1 else none

/-- `find_any` (run.py lines 55-69): scan the whole title universe with
the same max-score selection and return `top[0]` unconditionally (the
empty string when nothing scored above 0). -/
def find_any (cat : Catalog) (query : String) : String :=
  (findTop (scoreAgainst query) (stripLines cat.titleLines)).1

/-- `find_song` (run.py lines 71-87): re-resolve the artist; on a miss
return `None` without listing any tracks; otherwise max-score selection
over that artist's titles only, returned without any threshold test. -/
def find_song (cat : Catalog) (artistQuery query : String) : Option String :=
  match find_artist cat.artistLines artistQuery with
  | none => none
  | some a =>
    some (findTop (scoreAgainst query) (stripLines (cat.titlesFor a))).1

/-- Ollama / conversation settings (run.py lines 20-26). -/
def BOT_NAME : String := "jimbo"

/-- The hard-coded system prompt (the f-string of run.py line 26, with
`BOT_NAME` substituted). -/
def SYSTEM_PROMPT : String :=
  "Your name is jimbo. You are a helpful assistant. Keep your responses very brief. Be as concise as possible. Only use as few words as necessary. Laconic."

/-- Message roles of the Ollama chat payload. -/
inductive Role where
  | system
  | user
  | assistant
deriving DecidableEq, Repr

/-- One chat message (`{"role": ..., "content": ...}`). -/
structure Msg where
  role : Role
  content : String
deriving DecidableEq, Repr

/-- The `messages` list of the payload built by `query_ollama`
(run.py lines 90-97): exactly the system prompt and the current user
prompt, nothing else. -/
def ollamaMessages (user_prompt : String) : List Msg :=
  [⟨Role.system, SYSTEM_PROMPT⟩, ⟨Role.user, user_prompt⟩]

/-- Outcome of the HTTP call made inside `query_ollama`: a well-formed
success (a `message.content` string), a `requests.RequestException`, or
any other exception (malformed response, connection-level failure caught
by the generic handler). -/
inductive OllamaResult where
  | success (content : String)
  | requestExc (msg : String)
  | otherExc
deriving DecidableEq, Repr

/-- The value `query_ollama` returns (run.py lines 99-108): on success
the reply content; on a `RequestException` an error string; on any other
exception the exception object itself — modelled as `none` because it is
not a string (so `"\n" + ollama_response` at the call site raises). -/
def query_ollama (r : OllamaResult) : Option String :=
  match r with
  | .success c => some c
  | .requestExc m => some ("Error querying Ollama: " ++ m)
  | .otherExc => none

/-- Python exceptions that can escape a dispatch branch of the main loop:
`IndexError` from `parts[0]` on an empty token list, `AttributeError`
from `None.lower()` inside `find_artist`, and `TypeError` from passing
`None` to `subprocess.run` or concatenating a non-string reply. -/
inductive PyExn where
  | indexError
  | attributeError
  | typeError
deriving DecidableEq, Repr

/-- The message `print(e)` shows for each modelled exception. -/
def pyExnMsg : PyExn → String
  | .indexError => "list index out of range"
  | .attributeError => "AttributeError"
  | .typeError => "TypeError"

/-- The Command variants of the data model (spec section 3). -/
inductive Command where
  | Clear
  | Stop
  | Pause
  | Resume
  | Skip
  | Previous
  | VolumeSet (level : Nat)
  | ShuffleAll
  | PlayByTitleArtist (title artist_query : String)
  | PlayByTitle (title : String)
  | ShuffleByArtist (artist_query : String)
  | AssistantQuery (text : String)
  | Unknown (text : String)
deriving DecidableEq, Repr

/-- The artist query the shuffle branch builds from the token remainder:
`" ".join(" ".join(parts[1:]).split(" by ")[1:])` (run.py line 166). -/
def shuffleQuery (rest : List String) : String :=
  joinSp (splitOnBy (joinSp rest)).tail

/-- The keyword-prefix branches of the if/elif chain (run.py lines
150-172), applied once `parts` is known to be non-empty: `parts[0]`
starting with the play keyword, equal to the shuffle keyword, or equal
to the assistant wake word; anything else falls through (a silent
no-op, `Unknown`). -/
def classifyTokens (text p0 : String) (rest : List String) : Command :=
  if startsPlay p0 then
    match splitOnBy (joinSp rest) with
    | t :: aq :: _ => .PlayByTitleArtist t aq
    | _ => .PlayByTitle (joinSp rest)
  else if p0 = "shuffle" then .ShuffleByArtist (shuffleQuery rest)
  else if p0 = BOT_NAME then .AssistantQuery text
  else .Unknown text

/-- The branch selection of the main loop's if/elif chain
(run.py lines 128-172), read off as a classifier from the utterance
string to a Command.  The chain first tries exact full-string matches,
then keyword-prefix matches on `parts = pending_text.split()`; accessing
`parts[0]` when `parts` is empty raises `IndexError`. -/
def classify (text : String) : Except PyExn Command :=
  if text = "clear" then .ok .Clear
  else if text = "volume up" then .ok (.VolumeSet 100)
  else if text = "volume down" then .ok (.VolumeSet 60)
  else if text = "stop" then .ok .Stop
  else if text = "pause" then .ok .Pause
  else if text = "play" ∨ text = "resume" then .ok .Resume
  else if text = "shuffle all songs" then .ok .ShuffleAll
  else if text = "skip" then .ok .Skip
  else if text = "rewind" ∨ text = "go back" then .ok .Previous
  else
    match pySplit text with
    | [] => .error .indexError
    | p0 :: rest => .ok (classifyTokens text p0 rest)

instance : DecidableEq (Except PyExn Command) := fun a b =>
  match a, b with
  | .error e1, .error e2 =>
    match decEq e1 e2 with
    | isTrue h => isTrue (h ▸ rfl)
    | isFalse h => isFalse fun hh => h (Except.error.inj hh)
  | .ok c1, .ok c2 =>
    match decEq c1 c2 with
    | isTrue h => isTrue (h ▸ rfl)
    | isFalse h => isFalse fun hh => h (Except.ok.inj hh)
  | .error _, .ok _ => isFalse fun hh => Except.noConfusion hh
  | .ok _, .error _ => isFalse fun hh => Except.noConfusion hh

/-- Observable side effects of one dispatch: a mutating `mpc` invocation
(`subprocess.run(["mpc", ...])`), a console `print`, or the single HTTP
request to the Ollama backend carrying its message list. -/
inductive Effect where
  | mpc (args : List String)
  | print (s : String)
  | ollama (messages : List Msg)
deriving DecidableEq, Repr

/-- Result of running one dispatch branch: the effects emitted in order,
the conversation-history variable afterwards, and the exception that
escaped the branch (if any; effects emitted before the raise stand). -/
structure DispatchOut where
  effects : List Effect
  hist : List Msg
  exn : Option PyExn
deriving DecidableEq, Repr

/-- A loose rendering of `print(tracks)` inside `find_any`
(run.py line 64); the exact Python list `repr` format is abstracted. -/
def pyShowList (l : List String) : String :=
  "[" ++ String.intercalate ", " l ++ "]"

/-- The body of the branch the if/elif chain selected (run.py lines
128-172), with the mpc catalog queries answered from `cat` and the one
possible Ollama call answered by `backend`.  Mirrors the straight-line
Python, including the places where a `None` flows into `subprocess.run`
or `None.lower()` and raises after some effects already happened. -/
def execCommand (cat : Catalog) (backend : List Msg → OllamaResult)
    (hist : List Msg) : Command → DispatchOut
  | .Clear => ⟨[.print "\n----- cleared session context -----\n"], [], none⟩
  | .VolumeSet v => ⟨[.mpc ["mpc", "volume", toString v]], hist, none⟩
  | .Stop => ⟨[.mpc ["mpc", "stop"]], hist, none⟩
  | .Pause => ⟨[.mpc ["mpc", "pause"]], hist, none⟩
  | .Resume => ⟨[.mpc ["mpc", "play"]], hist, none⟩
  | .ShuffleAll =>
    ⟨[.mpc ["mpc", "clear"], .mpc ["mpc", "add", "/"],
      .mpc ["mpc", "shuffle"], .mpc ["mpc", "play"]], hist, none⟩
  | .Skip => ⟨[.mpc ["mpc", "next"]], hist, none⟩
  | .Previous => ⟨[.mpc ["mpc", "prev"]], hist, none⟩
  | .PlayByTitleArtist t aq =>
    match find_artist cat.artistLines aq with
    | none =>
      -- artist = None; find_song(None, t) calls find_artist(None): with a
      -- non-empty artist list `None.lower()` raises AttributeError before
      -- any mpc mutation; with an empty list find_song returns None, the
      -- queue is cleared, and findadd then raises TypeError on the None args.
      if stripLines cat.artistLines = [] then
        ⟨[.mpc ["mpc", "clear"]], hist, some .typeError⟩
      else ⟨[], hist, some .attributeError⟩
    | some a =>
      match find_song cat a t with
      | none => ⟨[.mpc ["mpc", "clear"]], hist, some .typeError⟩
      | some r =>
        ⟨[.mpc ["mpc", "clear"],
          .mpc ["mpc", "findadd", "artist", a, "title", r],
          .mpc ["mpc", "play"]], hist, none⟩
  | .PlayByTitle q =>
    ⟨[.print (pyShowList (stripLines cat.titleLines)),
      .mpc ["mpc", "clear"],
      .mpc ["mpc", "findadd", "title", find_any cat q],
      .mpc ["mpc", "play"]], hist, none⟩
  | .ShuffleByArtist aq =>
    match find_artist cat.artistLines aq with
    | none => ⟨[.mpc ["mpc", "clear"]], hist, some .typeError⟩
    | some a =>
      ⟨[.mpc ["mpc", "clear"], .mpc ["mpc", "findadd", "artist", a],
        .mpc ["mpc", "play"]], hist, none⟩
  | .AssistantQuery txt =>
    match query_ollama (backend (ollamaMessages txt)) with
    | some s =>
      ⟨[.ollama (ollamaMessages txt), .print ("\n" ++ s)], hist, none⟩
    | none => ⟨[.ollama (ollamaMessages txt)], hist, some .typeError⟩
  | .Unknown _ => ⟨[], hist, none⟩

/-- One full dispatch of a non-empty utterance: branch selection followed
by the branch body. -/
def dispatchFull (cat : Catalog) (backend : List Msg → OllamaResult)
    (hist : List Msg) (text : String) : DispatchOut :=
  match classify text with
  | .ok c => execCommand cat backend hist c
  | .error e => ⟨[], hist, some e⟩

/-- The `try`/`except` isolation around the dispatch (run.py lines
127-176): on normal completion the trailing `print()` runs; on any
exception `print(e)` runs instead.  Either way a plain (exception-free)
result is produced. -/
def dispatchBoundary (cat : Catalog) (backend : List Msg → OllamaResult)
    (hist : List Msg) (text : String) : List Effect × List Msg :=
  match (dispatchFull cat backend hist text).exn with
  | none =>
    ((dispatchFull cat backend hist text).effects ++ [.print "\n"],
      (dispatchFull cat backend hist text).hist)
  | some e =>
    ((dispatchFull cat backend hist text).effects ++ [.print (pyExnMsg e)],
      (dispatchFull cat backend hist text).hist)

/-- Amplitude gate threshold (run.py line 18); defined but never used by
the loop, since the amplitude computation is commented out. -/
def AMP_THRESHOLD : Nat := 600

/-- Modelled from the spec: the peak absolute amplitude of a frame of
int16 samples (`np.max(np.abs(audio_data))`) — the energy-gate
computation the spec describes, present in run.py only as the
commented-out lines 116-117. -/
def peakAmp (frame : List Int) : Nat :=
  frame.foldl (fun m x => Nat.max m x.natAbs) 0

/-- The segmentation step of one loop iteration (run.py lines 115-122):
the frame is read and fed to the recognizer, but its amplitude is never
inspected; a finalized recognition result with non-empty text becomes
the pending utterance, anything else leaves it unset. -/
def segmentStep (_frame : List Int) (recOut : Option String) : Option String :=
  match recOut with
  | some t => if t = "" then none else some t
  | none => none

/-- One whole iteration of the main loop: segmentation, then (when an
utterance is pending) the echo print and the isolated dispatch; returns
the conversation history afterwards and the effects emitted. -/
def mainIter (cat : Catalog) (backend : List Msg → OllamaResult)
    (hist : List Msg) (frame : List Int) (recOut : Option String) :
    List Msg × List Effect :=
  match segmentStep frame recOut with
  | none => (hist, [])
  | some t =>
    ((dispatchBoundary cat backend hist t).2,
      .print ("\n> " ++ " " ++ t) :: (dispatchBoundary cat backend hist t).1)

/-- The main loop over a finite trace of (frame, recognizer output)
pairs, threading the conversation history. -/
def mainLoop (cat : Catalog) (backend : List Msg → OllamaResult)
    (hist : List Msg) : List (List Int × Option String) → List Msg × List Effect
  | [] => (hist, [])
  | (frame, r) :: rest =>
    ((mainLoop cat backend (mainIter cat backend hist frame r).1 rest).1,
      (mainIter cat backend hist frame r).2 ++
        (mainLoop cat backend (mainIter cat backend hist frame r).1 rest).2)

/-! Helper lemmas about the similarity scorer and the max-score
selection loop. -/

theorem indelDistAux_self : ∀ (l : List Char) (fuel : Nat),
    l.length ≤ fuel → indelDistAux fuel l l = 0
  | [], fuel, _ => by cases fuel <;> rfl
  | c :: cs, fuel, h => by
    cases fuel with
    | zero => simp at h
    | succ f =>
      have hf : cs.length ≤ f := by
        simp only [List.length_cons] at h
        omega
      simp [indelDistAux, indelDistAux_self cs f hf]

theorem indelDist_self (l : List Char) : indelDist l l = 0 :=
  indelDistAux_self l (l.length + l.length) (by omega)

theorem similarity_self (s : String) : similarity s s = 100 := by
  unfold similarity
  by_cases h : s.data.length + s.data.length = 0
  · rw [if_pos h]
  · have hpos : 0 < s.data.length + s.data.length := Nat.pos_of_ne_zero h
    rw [if_neg h, indelDist_self,
      show 200 * (s.data.length + s.data.length - 0) +
          (s.data.length + s.data.length) =
          2 * (s.data.length + s.data.length) * 100 +
            (s.data.length + s.data.length) from by omega,
      Nat.mul_add_div (by omega), Nat.div_eq_of_lt (by omega)]

theorem scoreAgainst_self (s : String) : scoreAgainst s s = 100 :=
  similarity_self (pyLower s)

theorem findTop_def (sc : String → Nat) (items : List String) :
    findTop sc items = List.foldl (stepT sc) ("", 0) items := rfl

theorem listMax_cons (sc : String → Nat) (s : Nat) (x : String)
    (xs : List String) :
    listMax sc s (x :: xs) = listMax sc (max s (sc x)) xs := rfl

theorem listMax_le_self (sc : String → Nat) (items : List String) :
    ∀ s : Nat, s ≤ listMax sc s items := by
  induction items with
  | nil => intro s; simp [listMax]
  | cons x xs ih =>
    intro s
    rw [listMax_cons]
    exact le_trans (le_max_left s (sc x)) (ih _)

theorem le_listMax_of_mem (sc : String → Nat) (items : List String) :
    ∀ (s : Nat) (x : String), x ∈ items → sc x ≤ listMax sc s items := by
  induction items with
  | nil => intro s x hx; cases hx
  | cons y ys ih =>
    intro s x hx
    rw [listMax_cons]
    rcases List.mem_cons.mp hx with h | h
    · subst h
      exact le_trans (le_max_right s (sc x)) (listMax_le_self _ _ _)
    · exact ih _ _ h

theorem stepT_pos {sc : String → Nat} {b : String} {s : Nat} {x : String}
    (h : s < sc x) : stepT sc (b, s) x = (x, sc x) := by
  simp [stepT, if_pos h]

theorem stepT_neg {sc : String → Nat} {b : String} {s : Nat} {x : String}
    (h : ¬ s < sc x) : stepT sc (b, s) x = (b, s) := by
  simp [stepT, if_neg h]

theorem foldT_snd (sc : String → Nat) (items : List String) :
    ∀ (b : String) (s : Nat),
      (List.foldl (stepT sc) (b, s) items).2 = listMax sc s items := by
  induction items with
  | nil => intro b s; simp [listMax]
  | cons x xs ih =>
    intro b s
    rw [listMax_cons]
    simp only [List.foldl]
    by_cases hx : s < sc x
    · rw [stepT_pos hx, ih, max_eq_right (le_of_lt hx)]
    · rw [stepT_neg hx, ih, max_eq_left (Nat.not_lt.mp hx)]

theorem foldT_id_of_le (sc : String → Nat) (items : List String) :
    ∀ (b : String) (s : Nat), (∀ x ∈ items, sc x ≤ s) →
      List.foldl (stepT sc) (b, s) items = (b, s) := by
  induction items with
  | nil => intro b s _; rfl
  | cons x xs ih =>
    intro b s h
    simp only [List.foldl]
    rw [stepT_neg (Nat.not_lt.mpr (h x (List.mem_cons_self x xs)))]
    exact ih b s fun y hy => h y (List.mem_cons_of_mem _ hy)

theorem foldT_res (sc : String → Nat) (items : List String) :
    ∀ (b : String) (s : Nat),
      List.foldl (stepT sc) (b, s) items = (b, s) ∨
      ((List.foldl (stepT sc) (b, s) items).1 ∈ items ∧
        sc (List.foldl (stepT sc) (b, s) items).1 =
          (List.foldl (stepT sc) (b, s) items).2) := by
  induction items with
  | nil => intro b s; left; rfl
  | cons x xs ih =>
    intro b s
    simp only [List.foldl]
    by_cases hx : s < sc x
    · rw [stepT_pos hx]
      rcases ih x (sc x) with h | ⟨hm, he⟩
      · right
        rw [h]
        exact ⟨List.mem_cons_self x xs, rfl⟩
      · exact Or.inr ⟨List.mem_cons_of_mem _ hm, he⟩
    · rw [stepT_neg hx]
      rcases ih b s with h | ⟨hm, he⟩
      · exact Or.inl h
      · exact Or.inr ⟨List.mem_cons_of_mem _ hm, he⟩

theorem foldT_find (sc : String → Nat) (items : List String) :
    ∀ (b : String) (s : Nat), s < listMax sc s items →
      List.find? (fun x => sc x == listMax sc s items) items =
        some (List.foldl (stepT sc) (b, s) items).1 := by
  induction items with
  | nil => intro b s h; simp [listMax] at h
  | cons x xs ih =>
    intro b s h
    rw [listMax_cons] at h ⊢
    simp only [List.foldl]
    by_cases hx : s < sc x
    · rw [max_eq_right (le_of_lt hx)] at h ⊢
      rw [stepT_pos hx]
      by_cases h2 : sc x < listMax sc (sc x) xs
      · rw [List.find?_cons_of_neg _
          (by simp only [beq_iff_eq]; exact Nat.ne_of_lt h2)]
        exact ih x (sc x) h2
      · have hMx : listMax sc (sc x) xs = sc x :=
          le_antisymm (Nat.not_lt.mp h2) (listMax_le_self _ _ _)
        rw [hMx, List.find?_cons_of_pos _ (by simp),
          foldT_id_of_le sc xs x (sc x)
            (fun y hy => hMx ▸ le_listMax_of_mem sc xs (sc x) y hy)]
    · rw [max_eq_left (Nat.not_lt.mp hx)] at h ⊢
      rw [stepT_neg hx]
      have hne : sc x ≠ listMax sc s xs :=
        Nat.ne_of_lt (lt_of_le_of_lt (Nat.not_lt.mp hx) h)
      rw [List.find?_cons_of_neg _ (by simp only [beq_iff_eq]; exact hne)]
      exact ih b s h

/-! Helper lemmas about `find_artist` and `find_song`. -/

theorem find_artist_eq_some {lines : List String} {q a : String}
    (h : find_artist lines q = some a) :
    a ∈ stripLines lines ∧
      0 < (findTop (scoreAgainst q) (stripLines lines)).2 := by
  unfold find_artist at h
  by_cases hp : 0 < (findTop (scoreAgainst q) (stripLines lines)).2
  · rw [if_pos hp] at h
    injection h with h1
    rcases foldT_res (scoreAgainst q) (stripLines lines) "" 0 with hz | ⟨hm, _⟩
    · rw [findTop_def, hz] at hp
      simp at hp
    · rw [← findTop_def] at hm
      exact ⟨h1 ▸ hm, hp⟩
  · rw [if_neg hp] at h
    cases h

theorem find_artist_of_mem {lines : List String} {a : String}
    (h : a ∈ stripLines lines) :
    find_artist lines a = some (findTop (scoreAgainst a) (stripLines lines)).1 := by
  have h100 : scoreAgainst a a = 100 := scoreAgainst_self a
  have hle : scoreAgainst a a ≤ listMax (scoreAgainst a) 0 (stripLines lines) :=
    le_listMax_of_mem _ _ 0 a h
  have hpos : 0 < (findTop (scoreAgainst a) (stripLines lines)).2 := by
    rw [findTop_def, foldT_snd]
    omega
  unfold find_artist
  rw [if_pos hpos]

theorem find_song_resolved (cat : Catalog) {aq a : String} (t : String)
    (h : find_artist cat.artistLines aq = some a) :
    find_song cat a t =
      some ((findTop (scoreAgainst t) (stripLines (cat.titlesFor
        (findTop (scoreAgainst a) (stripLines cat.artistLines)).1))).1) := by
  have hm := (find_artist_eq_some h).1
  unfold find_song
  rw [find_artist_of_mem hm]

theorem bestScore_def (sc : String → Nat) (items : List String) :
    bestScore sc items = listMax sc 0 items := rfl

/-! The claims. -/

/-- C5: for every query and non-empty artist catalog, `find_artist`
scans all artist names and selects a candidate whose case-insensitive
similarity score equals the true maximum over all artist names (ties
broken by first-encountered catalog order, witnessed here by agreement
with `List.find?` on the maximum), and returns `none` exactly when that
best score does not strictly exceed the configured threshold (0). -/
theorem find_artist_max_spec (lines : List String) (q : String)
    (_hne : stripLines lines ≠ []) :
    (find_artist lines q = none ↔
      bestScore (scoreAgainst q) (stripLines lines) = 0) ∧
    (0 < bestScore (scoreAgainst q) (stripLines lines) →
      List.find? (fun x => scoreAgainst q x ==
          bestScore (scoreAgainst q) (stripLines lines)) (stripLines lines) =
        find_artist lines q) := by
  have hsnd : (findTop (scoreAgainst q) (stripLines lines)).2 =
      bestScore (scoreAgainst q) (stripLines lines) := by
    rw [findTop_def, bestScore_def]
    exact foldT_snd _ _ "" 0
  constructor
  · constructor
    · intro hnone
      by_contra hbs
      have hpos : 0 < (findTop (scoreAgainst q) (stripLines lines)).2 := by
        rw [hsnd]
        exact Nat.pos_of_ne_zero hbs
      unfold find_artist at hnone
      rw [if_pos hpos] at hnone
      cases hnone
    · intro h0
      unfold find_artist
      rw [if_neg (by rw [hsnd, h0]; exact lt_irrefl 0)]
  · intro hpos
    unfold find_artist
    rw [if_pos (by rw [hsnd]; exact hpos), bestScore_def, findTop_def]
    exact foldT_find (scoreAgainst q) (stripLines lines) "" 0
      (by rw [bestScore_def] at hpos; exact hpos)

/-- Witness for C5 at a concrete catalog: the query "radiohead" against
the catalog line "Radiohead" resolves (case-insensitively, score 100). -/
theorem find_artist_max_spec_witness :
    (find_artist ["Radiohead"] "radiohead" = none ↔
      bestScore (scoreAgainst "radiohead") (stripLines ["Radiohead"]) = 0) ∧
    List.find? (fun x => scoreAgainst "radiohead" x ==
        bestScore (scoreAgainst "radiohead") (stripLines ["Radiohead"]))
      (stripLines ["Radiohead"]) = find_artist ["Radiohead"] "radiohead" :=
  ⟨(find_artist_max_spec ["Radiohead"] "radiohead" (by decide)).1,
    (find_artist_max_spec ["Radiohead"] "radiohead" (by decide)).2 (by decide)⟩

/-- C6: `find_song` returns `none` whenever the artist resolution
returns `none` — independently of the track catalog, so no track is
scored — and when the artist resolves it returns the max-score selection
over only that artist's titles, with no threshold applied. -/
theorem find_song_spec (aLines tLines tLines2 : List String)
    (f f2 : String → List String) (aq tq : String) :
    (find_song ⟨aLines, tLines, f⟩ aq tq =
      match find_artist aLines aq with
      | none => none
      | some a => some ((findTop (scoreAgainst tq) (stripLines (f a))).1)) ∧
    (find_artist aLines aq = none →
      find_song ⟨aLines, tLines, f⟩ aq tq = none ∧
      find_song ⟨aLines, tLines2, f2⟩ aq tq = none) := by
  constructor
  · rfl
  · intro h
    exact ⟨by simp [find_song, h], by simp [find_song, h]⟩

/-- Witness for C6: an artist miss makes `find_song` return `none` for
two different track catalogs, without consulting either. -/
theorem find_song_spec_witness :
    find_song ⟨["abc"], [], fun _ => ["t1"]⟩ "xyz" "anything" = none ∧
    find_song ⟨["abc"], ["z"], fun _ => []⟩ "xyz" "anything" = none :=
  (find_song_spec ["abc"] [] ["z"] (fun _ => ["t1"]) (fun _ => [])
    "xyz" "anything").2 (by decide)

/-- C10: `find_any` is total on strings — it returns the
first-encountered title of maximum case-insensitive similarity when that
maximum is positive and the empty string when the title catalog is empty
or nothing scores above 0 — and the PlayByTitle dispatch path always
clears the queue and issues findadd/play with that (possibly empty)
title, never aborting. -/
theorem find_any_total_spec (cat : Catalog) (backend : List Msg → OllamaResult)
    (hist : List Msg) (q : String) :
    ((bestScore (scoreAgainst q) (stripLines cat.titleLines) = 0 ∧
        find_any cat q = "") ∨
      (0 < bestScore (scoreAgainst q) (stripLines cat.titleLines) ∧
        List.find? (fun x => scoreAgainst q x ==
            bestScore (scoreAgainst q) (stripLines cat.titleLines))
          (stripLines cat.titleLines) = some (find_any cat q))) ∧
    execCommand cat backend hist (.PlayByTitle q) =
      ⟨[.print (pyShowList (stripLines cat.titleLines)),
        .mpc ["mpc", "clear"],
        .mpc ["mpc", "findadd", "title", find_any cat q],
        .mpc ["mpc", "play"]], hist, none⟩ := by
  constructor
  · by_cases hp : 0 < bestScore (scoreAgainst q) (stripLines cat.titleLines)
    · right
      refine ⟨hp, ?_⟩
      rw [bestScore_def]
      unfold find_any
      rw [findTop_def]
      exact foldT_find (scoreAgainst q) (stripLines cat.titleLines) "" 0
        (by rw [bestScore_def] at hp; exact hp)
    · left
      have h0 : bestScore (scoreAgainst q) (stripLines cat.titleLines) = 0 := by
        omega
      have hall : ∀ y ∈ stripLines cat.titleLines, scoreAgainst q y ≤ 0 := by
        intro y hy
        have hle := le_listMax_of_mem (scoreAgainst q)
          (stripLines cat.titleLines) 0 y hy
        rw [← bestScore_def, h0] at hle
        exact hle
      refine ⟨h0, ?_⟩
      unfold find_any
      rw [findTop_def, foldT_id_of_le _ _ "" 0 hall]
  · rfl

/-- C1 counterexample: with an empty artist catalog region (the spec's
own scenario), "play nonexistent song by nobody" misses artist
resolution, yet the dispatcher still issues the queue-clearing `mpc`
call before aborting with a TypeError at the findadd call — so a media
control invocation is issued and the playback queue is cleared. -/
theorem play_miss_still_clears_queue :
    find_artist ([] : List String) "nobody" = none ∧
    (dispatchFull ⟨[], [], fun _ => []⟩ (fun _ => .success "ok") []
        "play nonexistent song by nobody").effects =
      [Effect.mpc ["mpc", "clear"]] ∧
    (dispatchFull ⟨[], [], fun _ => []⟩ (fun _ => .success "ok") []
        "play nonexistent song by nobody").exn = some PyExn.typeError := by
  decide

/-- C1 amended: on PlayByTitleArtist, an artist miss over a non-empty
artist list aborts with an AttributeError before any media-control call,
but an artist miss with an empty artist list clears the queue first and
then aborts with a TypeError; when the artist matches, the track lookup
always produces a title (there is no track-miss case) and the
clear/findadd/play sequence is issued in full. -/
theorem play_by_title_artist_branch (cat : Catalog)
    (backend : List Msg → OllamaResult) (hist : List Msg) (t aq : String) :
    (find_artist cat.artistLines aq = none ∧ stripLines cat.artistLines = [] ∧
      execCommand cat backend hist (.PlayByTitleArtist t aq) =
        ⟨[.mpc ["mpc", "clear"]], hist, some .typeError⟩) ∨
    (find_artist cat.artistLines aq = none ∧ stripLines cat.artistLines ≠ [] ∧
      execCommand cat backend hist (.PlayByTitleArtist t aq) =
        ⟨[], hist, some .attributeError⟩) ∨
    (∃ a r, find_artist cat.artistLines aq = some a ∧
      find_song cat a t = some r ∧
      execCommand cat backend hist (.PlayByTitleArtist t aq) =
        ⟨[.mpc ["mpc", "clear"],
          .mpc ["mpc", "findadd", "artist", a, "title", r],
          .mpc ["mpc", "play"]], hist, none⟩) := by
  cases h : find_artist cat.artistLines aq with
  | none =>
    by_cases he : stripLines cat.artistLines = []
    · exact Or.inl ⟨rfl, he, by simp [execCommand, h, he]⟩
    · exact Or.inr (Or.inl ⟨rfl, he, by simp [execCommand, h, he]⟩)
  | some a =>
    refine Or.inr (Or.inr ⟨a, _, rfl, find_song_resolved cat t h, ?_⟩)
    simp [execCommand, h, find_song_resolved cat t h]

/-- C2 counterexample: a dispatch of AssistantQuery with two prior
messages in the session sends only the system prompt and the current
user turn (the prior user message is absent from the outgoing list) and
leaves the session exactly as it was — it does not grow by two. -/
theorem assistant_query_drops_history :
    (dispatchFull ⟨[], [], fun _ => []⟩ (fun _ => .success "hi")
        [⟨Role.user, "earlier question"⟩, ⟨Role.assistant, "earlier answer"⟩]
        "jimbo hello").hist =
      [⟨Role.user, "earlier question"⟩, ⟨Role.assistant, "earlier answer"⟩] ∧
    (dispatchFull ⟨[], [], fun _ => []⟩ (fun _ => .success "hi")
        [⟨Role.user, "earlier question"⟩, ⟨Role.assistant, "earlier answer"⟩]
        "jimbo hello").effects =
      [Effect.ollama [⟨Role.system, SYSTEM_PROMPT⟩, ⟨Role.user, "jimbo hello"⟩],
        Effect.print "\nhi"] ∧
    (⟨Role.user, "earlier question"⟩ : Msg) ∉ ollamaMessages "jimbo hello" := by
  decide

/-- C2 amended: every AssistantQuery dispatch sends exactly two messages
— the hard-coded system prompt and the current utterance — regardless of
prior turns, and never reads or appends to the conversation session (the
session is unchanged by the dispatch). -/
theorem assistant_query_stateless (cat : Catalog)
    (backend : List Msg → OllamaResult) (hist : List Msg) (txt : String) :
    ollamaMessages txt = [⟨Role.system, SYSTEM_PROMPT⟩, ⟨Role.user, txt⟩] ∧
    (execCommand cat backend hist (.AssistantQuery txt)).hist = hist ∧
    (∃ es, (execCommand cat backend hist (.AssistantQuery txt)).effects =
      Effect.ollama (ollamaMessages txt) :: es) := by
  refine ⟨rfl, ?_, ?_⟩
  · cases hq : query_ollama (backend (ollamaMessages txt)) <;>
      simp [execCommand, hq]
  · cases hq : query_ollama (backend (ollamaMessages txt)) with
    | none => exact ⟨[], by simp [execCommand, hq]⟩
    | some s => exact ⟨[.print ("\n" ++ s)], by simp [execCommand, hq]⟩

/-- C3 counterexample: the whitespace-only utterance " " (which passes
the truthiness guard of the loop) reaches the classification chain and
raises IndexError at `parts[0]` instead of yielding a Command. -/
theorem classify_whitespace_raises :
    classify " " = Except.error PyExn.indexError := by decide

/-- C3 amended: classification is deterministic as a function and yields
exactly one Command for every string containing at least one
whitespace-delimited token; for empty or whitespace-only strings the
chain raises IndexError at `parts[0]` (caught downstream by the dispatch
wrapper). -/
theorem classify_total_unless_no_tokens (text : String) :
    (pySplit text = [] ∧ classify text = .error .indexError) ∨
    (pySplit text ≠ [] ∧ ∃ c, classify text = .ok c) := by
  by_cases hp : pySplit text = []
  · left
    refine ⟨hp, ?_⟩
    have h1 : text ≠ "clear" := by
      rintro rfl; exact absurd hp (by decide)
    have h2 : text ≠ "volume up" := by
      rintro rfl; exact absurd hp (by decide)
    have h3 : text ≠ "volume down" := by
      rintro rfl; exact absurd hp (by decide)
    have h4 : text ≠ "stop" := by
      rintro rfl; exact absurd hp (by decide)
    have h5 : text ≠ "pause" := by
      rintro rfl; exact absurd hp (by decide)
    have h6 : ¬ (text = "play" ∨ text = "resume") := by
      rintro (rfl | rfl) <;> exact absurd hp (by decide)
    have h7 : text ≠ "shuffle all songs" := by
      rintro rfl; exact absurd hp (by decide)
    have h8 : text ≠ "skip" := by
      rintro rfl; exact absurd hp (by decide)
    have h9 : ¬ (text = "rewind" ∨ text = "go back") := by
      rintro (rfl | rfl) <;> exact absurd hp (by decide)
    unfold classify
    rw [if_neg h1, if_neg h2, if_neg h3, if_neg h4, if_neg h5, if_neg h6,
      if_neg h7, if_neg h8, if_neg h9, hp]
  · right
    refine ⟨hp, ?_⟩
    unfold classify
    by_cases h1 : text = "clear"
    · rw [if_pos h1]; exact ⟨_, rfl⟩
    rw [if_neg h1]
    by_cases h2 : text = "volume up"
    · rw [if_pos h2]; exact ⟨_, rfl⟩
    rw [if_neg h2]
    by_cases h3 : text = "volume down"
    · rw [if_pos h3]; exact ⟨_, rfl⟩
    rw [if_neg h3]
    by_cases h4 : text = "stop"
    · rw [if_pos h4]; exact ⟨_, rfl⟩
    rw [if_neg h4]
    by_cases h5 : text = "pause"
    · rw [if_pos h5]; exact ⟨_, rfl⟩
    rw [if_neg h5]
    by_cases h6 : text = "play" ∨ text = "resume"
    · rw [if_pos h6]; exact ⟨_, rfl⟩
    rw [if_neg h6]
    by_cases h7 : text = "shuffle all songs"
    · rw [if_pos h7]; exact ⟨_, rfl⟩
    rw [if_neg h7]
    by_cases h8 : text = "skip"
    · rw [if_pos h8]; exact ⟨_, rfl⟩
    rw [if_neg h8]
    by_cases h9 : text = "rewind" ∨ text = "go back"
    · rw [if_pos h9]; exact ⟨_, rfl⟩
    rw [if_neg h9]
    obtain ⟨p0, rest, hps⟩ : ∃ p0 rest, pySplit text = p0 :: rest := by
      cases hq : pySplit text with
      | nil => exact absurd hq hp
      | cons a b => exact ⟨a, b, rfl⟩
    rw [hps]
    exact ⟨classifyTokens text p0 rest, rfl⟩

/-- C4 counterexample: a frame of all-zero samples has peak amplitude 0,
far below the configured threshold 600, yet its finalized recognition
result still becomes the candidate utterance — low-energy finalized
results are not suppressed (the gating code is commented out). -/
theorem low_energy_finalized_not_suppressed :
    peakAmp [0, 0, 0, 0] = 0 ∧ AMP_THRESHOLD = 600 ∧
    segmentStep [0, 0, 0, 0] (some "hello") = some "hello" := by decide

/-- C4 amended: the segmenter feeds every frame to the recognizer but
never inspects its amplitude — the step is independent of the frame
contents, and every finalized non-empty result becomes the candidate
utterance regardless of frame energy (AMP_THRESHOLD is defined but
unused). -/
theorem segment_step_ignores_amplitude (frame frame2 : List Int)
    (recOut : Option String) :
    segmentStep frame recOut = segmentStep frame2 recOut ∧
    (∀ t : String, t ≠ "" → segmentStep frame (some t) = some t) := by
  refine ⟨rfl, fun t ht => ?_⟩
  show (if t = "" then none else some t) = some t
  rw [if_neg ht]

/-- Witness for the amended C4: a silent frame and a loud frame produce
the same step, and the silent frame's finalized text is kept. -/
theorem segment_step_ignores_amplitude_witness :
    segmentStep [0] (some "hello") = segmentStep [700] (some "hello") ∧
    segmentStep [0] (some "hello") = some "hello" :=
  ⟨(segment_step_ignores_amplitude [0] [700] (some "hello")).1,
    (segment_step_ignores_amplitude [0] [700] (some "hello")).2 "hello"
      (by decide)⟩

/-- C7 counterexample: for "shuffle radiohead" (no " by " separator) the
artist query handed to resolution is the empty string, not the remainder
"radiohead"; the empty query matches nothing, and the dispatcher still
clears the queue before aborting with a TypeError at the findadd call. -/
theorem shuffle_without_separator_uses_empty_query :
    classify "shuffle radiohead" = Except.ok (Command.ShuffleByArtist "") ∧
    ("" : String) ≠ "radiohead" ∧
    find_artist ["radiohead"] "" = none ∧
    (dispatchFull ⟨["radiohead"], [], fun _ => []⟩ (fun _ => .success "ok") []
        "shuffle radiohead").effects = [Effect.mpc ["mpc", "clear"]] ∧
    (dispatchFull ⟨["radiohead"], [], fun _ => []⟩ (fun _ => .success "ok") []
        "shuffle radiohead").exn = some PyExn.typeError := by
  decide

/-- C7 amended: the shuffle branch always uses the space-rejoined pieces
after the first " by " separator as the artist query — the empty string
when no separator is present (never the whole remainder) — and on an
unmatched artist it still issues the queue-clear call and then aborts
with a TypeError at the findadd call. -/
theorem shuffle_branch_spec (cat : Catalog) (backend : List Msg → OllamaResult)
    (hist : List Msg) (text : String) (rest : List String)
    (hs : pySplit text = "shuffle" :: rest)
    (hns : text ≠ "shuffle all songs") :
    classify text = .ok (.ShuffleByArtist (shuffleQuery rest)) ∧
    ((splitOnBy (joinSp rest)).length = 1 → shuffleQuery rest = "") ∧
    (find_artist cat.artistLines (shuffleQuery rest) = none →
      execCommand cat backend hist (.ShuffleByArtist (shuffleQuery rest)) =
        ⟨[.mpc ["mpc", "clear"]], hist, some .typeError⟩) := by
  refine ⟨?_, ?_, ?_⟩
  · have h1 : text ≠ "clear" := by
      rintro rfl
      rw [show pySplit "clear" = ["clear"] from by decide] at hs
      injection hs with hh
      exact absurd hh (by decide)
    have h2 : text ≠ "volume up" := by
      rintro rfl
      rw [show pySplit "volume up" = ["volume", "up"] from by decide] at hs
      injection hs with hh
      exact absurd hh (by decide)
    have h3 : text ≠ "volume down" := by
      rintro rfl
      rw [show pySplit "volume down" = ["volume", "down"] from by decide] at hs
      injection hs with hh
      exact absurd hh (by decide)
    have h4 : text ≠ "stop" := by
      rintro rfl
      rw [show pySplit "stop" = ["stop"] from by decide] at hs
      injection hs with hh
      exact absurd hh (by decide)
    have h5 : text ≠ "pause" := by
      rintro rfl
      rw [show pySplit "pause" = ["pause"] from by decide] at hs
      injection hs with hh
      exact absurd hh (by decide)
    have h6 : ¬ (text = "play" ∨ text = "resume") := by
      rintro (rfl | rfl)
      · rw [show pySplit "play" = ["play"] from by decide] at hs
        injection hs with hh
        exact absurd hh (by decide)
      · rw [show pySplit "resume" = ["resume"] from by decide] at hs
        injection hs with hh
        exact absurd hh (by decide)
    have h8 : text ≠ "skip" := by
      rintro rfl
      rw [show pySplit "skip" = ["skip"] from by decide] at hs
      injection hs with hh
      exact absurd hh (by decide)
    have h9 : ¬ (text = "rewind" ∨ text = "go back") := by
      rintro (rfl | rfl)
      · rw [show pySplit "rewind" = ["rewind"] from by decide] at hs
        injection hs with hh
        exact absurd hh (by decide)
      · rw [show pySplit "go back" = ["go", "back"] from by decide] at hs
        injection hs with hh
        exact absurd hh (by decide)
    unfold classify
    rw [if_neg h1, if_neg h2, if_neg h3, if_neg h4, if_neg h5, if_neg h6,
      if_neg hns, if_neg h8, if_neg h9, hs]
    show Except.ok (classifyTokens text "shuffle" rest) =
      Except.ok (Command.ShuffleByArtist (shuffleQuery rest))
    unfold classifyTokens
    rw [if_neg (show ¬ (startsPlay "shuffle" = true) from by decide),
      if_pos rfl]
  · intro hlen
    obtain ⟨x, hx⟩ := List.length_eq_one.mp hlen
    unfold shuffleQuery
    rw [hx]
    rfl
  · intro hf
    simp [execCommand, hf]

/-- Witness for the amended C7 at "shuffle radiohead" with catalog
["radiohead"]: the artist query is "" and the dispatcher clears the
queue then aborts. -/
theorem shuffle_branch_spec_witness :
    classify "shuffle radiohead" =
      Except.ok (Command.ShuffleByArtist (shuffleQuery ["radiohead"])) ∧
    shuffleQuery ["radiohead"] = "" ∧
    execCommand ⟨["radiohead"], [], fun _ => []⟩ (fun _ => .success "ok") []
        (.ShuffleByArtist (shuffleQuery ["radiohead"])) =
      ⟨[Effect.mpc ["mpc", "clear"]], [], some PyExn.typeError⟩ := by
  have h := shuffle_branch_spec ⟨["radiohead"], [], fun _ => []⟩
    (fun _ => .success "ok") [] "shuffle radiohead" ["radiohead"]
    (by decide) (by decide)
  exact ⟨h.1, h.2.1 (by decide), h.2.2 (by decide)⟩

/-- C8 counterexample: the single-token utterance "play" matches the
exact-string play/resume branch, so it classifies to Resume (an `mpc
play` transport command), not to PlayByTitle(""). -/
theorem classify_play_is_resume :
    classify "play" = Except.ok Command.Resume ∧
    Command.Resume ≠ Command.PlayByTitle "" := by decide

/-- C8 amended: "play" alone does not raise, but it is captured by the
exact-match play/resume branch and classifies to Resume; a single token
that begins with "play" without being exactly "play" (such as "plays")
classifies to PlayByTitle("") without raising, with resolution handled
downstream. -/
theorem classify_play_exact_match_precedence :
    classify "play" = Except.ok Command.Resume ∧
    classify "plays" = Except.ok (Command.PlayByTitle "") := by decide

/-- C9: any exception escaping a dispatch branch is caught at the
dispatch boundary and converted to a printed message, and the main loop
then proceeds to process the rest of the input trace from the
post-dispatch session state. -/
theorem dispatch_failure_contained (cat : Catalog)
    (backend : List Msg → OllamaResult) (hist : List Msg) (frame : List Int)
    (text : String) (trace : List (List Int × Option String)) (e : PyExn)
    (ht : text ≠ "")
    (he : (dispatchFull cat backend hist text).exn = some e) :
    dispatchBoundary cat backend hist text =
      ((dispatchFull cat backend hist text).effects ++
        [Effect.print (pyExnMsg e)],
        (dispatchFull cat backend hist text).hist) ∧
    mainLoop cat backend hist ((frame, some text) :: trace) =
      ((mainLoop cat backend (dispatchFull cat backend hist text).hist
          trace).1,
        (Effect.print ("\n> " ++ " " ++ text) ::
            ((dispatchFull cat backend hist text).effects ++
              [Effect.print (pyExnMsg e)])) ++
          (mainLoop cat backend (dispatchFull cat backend hist text).hist
            trace).2) := by
  have hb : dispatchBoundary cat backend hist text =
      ((dispatchFull cat backend hist text).effects ++
        [Effect.print (pyExnMsg e)],
        (dispatchFull cat backend hist text).hist) := by
    unfold dispatchBoundary
    rw [he]
  have hseg : segmentStep frame (some text) = some text := by
    show (if text = "" then none else some text) = some text
    rw [if_neg ht]
  refine ⟨hb, ?_⟩
  simp only [mainLoop, mainIter, hseg, hb]

/-- Witness for C9: the whitespace utterance " " raises IndexError in
classification; the boundary prints the message and the loop finishes
the (singleton) trace normally. -/
theorem dispatch_failure_contained_witness :
    dispatchBoundary ⟨[], [], fun _ => []⟩ (fun _ => .success "ok") [] " " =
      ([Effect.print (pyExnMsg PyExn.indexError)], []) ∧
    mainLoop ⟨[], [], fun _ => []⟩ (fun _ => .success "ok") []
        [([1], some " ")] =
      ([], [Effect.print ("\n> " ++ " " ++ " "),
        Effect.print (pyExnMsg PyExn.indexError)]) := by
  have h := dispatch_failure_contained ⟨[], [], fun _ => []⟩
    (fun _ => .success "ok") [] [1] " " [] PyExn.indexError
    (by decide) (by decide)
  refine ⟨?_, ?_⟩
  · rw [h.1]
    decide
  · rw [h.2]
    decide

end Chatbot
